import Mathlib

/-!
Shallow embedding of the MLPCHAG character-search pipeline
(SillyTavern-Chag-Search).  The repository contains two JavaScript
iterations of the same feature: `src/index.js` (the latest, with a
timestamped cache, an NSFW-visibility rule and a settings panel) and
`src/unnamed/part_001` (an earlier iteration without the cache or the
NSFW rule and with a slightly different category-filter branch).
Definitions suffixed `IndexJs` embed `src/index.js`; definitions
suffixed `Part1` embed `src/unnamed/part_001`.  Machine strings are
Lean `String`s, JS `Date.now()` timestamps are `Nat` milliseconds, and
the numeric value of `new Date(s)` is an explicit parameter
`dateValue : String → Int`.
-/

namespace Mlpchag

/-- The backslash character, written via its code point. -/
def backslashChar : Char := Char.ofNat 92

/-- The double-quote character, written via its code point. -/
def quoteChar : Char := Char.ofNat 34

/-- The apostrophe character, written via its code point. -/
def apostChar : Char := Char.ofNat 39

/-- Embeds `key.replace(/\\/g, '/')` — every backslash becomes a forward slash. -/
def normalizeSlashes (s : String) : String :=
  String.mk (s.data.map fun c => if c = backslashChar then '/' else c)

/-- Embeds `key.replace(/\//g, '\\')` — every forward slash becomes a backslash. -/
def backslashify (s : String) : String :=
  String.mk (s.data.map fun c => if c = '/' then backslashChar else c)

/-- JS truthiness of an optional string field: `undefined`/`null` and the
empty string are falsy. -/
def truthy : Option String → Bool
  | none => false
  | some s => !s.isEmpty

/-- Embeds `a || b` on an optional string field with a string default. -/
def truthyOr : Option String → String → String
  | some s, d => if s.isEmpty then d else s
  | none, d => d

/-- A raw catalog entry (a value of the `mares.json` object).  `isObject`
models `value && typeof value === 'object'` and `error` models the
presence of a truthy `error` field. -/
structure RawEntry where
  isObject : Bool
  name : Option String
  author : Option String
  error : Bool
  description : Option String
  dateupdate : Option String
  datecreate : Option String
  deriving DecidableEq

/-- The filter index (`filters.json`): three category path lists and the
path-to-tags mapping (an association list, as a JS object). -/
structure Filters where
  nsfw : List String
  anthro : List String
  eqg : List String
  tags : List (String × List String)
  deriving DecidableEq

/-- Embeds `filters[category] || []` for the three category names used by the code. -/
def Filters.categoryList (f : Filters) (c : String) : List String :=
  if c = "nsfw" then f.nsfw
  else if c = "anthro" then f.anthro
  else if c = "eqg" then f.eqg
  else []

/-- The category id list `['nsfw', 'anthro', 'eqg']` from the source. -/
def categoryNames : List String := ["nsfw", "anthro", "eqg"]

/-- Embeds `path.replace(/\\/g, '/') === normalizedKey`. -/
def pathMatchesKey (normalizedKey : String) (p : String) : Bool :=
  normalizeSlashes p == normalizedKey

/-- Embeds `isInAnyCategory`: the entry's normalized path appears in one of the
three category path lists. -/
def isInAnyCategoryB (f : Filters) (key : String) : Bool :=
  categoryNames.any fun c => (f.categoryList c).any (pathMatchesKey (normalizeSlashes key))

/-- The NSFW check of `index.js`: normalized path appears in `filters['nsfw'] || []`. -/
def inNsfwList (f : Filters) (key : String) : Bool :=
  (f.categoryList "nsfw").any (pathMatchesKey (normalizeSlashes key))

/-- Embeds `selectedTags.filter(tag => ['nsfw','anthro','eqg'].includes(tag))`. -/
def selectedCategoriesOf (selectedTags : List String) : List String :=
  selectedTags.filter fun t => categoryNames.contains t

/-- Embeds `selectedTags.filter(tag => !['nsfw','anthro','eqg'].includes(tag))`. -/
def selectedRegularTagsOf (selectedTags : List String) : List String :=
  selectedTags.filter fun t => !categoryNames.contains t

/-- Embeds `selectedCategories.some(category => categoryPaths.some(...))`. -/
def inSelectedCategory (selectedCategories : List String) (f : Filters) (key : String) : Bool :=
  selectedCategories.any fun c => (f.categoryList c).any (pathMatchesKey (normalizeSlashes key))

/-- Embeds `s.toLowerCase()` restricted to the alphabet the data uses. -/
def jsToLower (s : String) : String := String.mk (s.data.map Char.toLower)

/-- Embeds `filters.tags[normalizedKey] || filters.tags[backslashKey] || []`
(a present empty array is truthy, hence `orElse` before `getD`). -/
def resolveTags (f : Filters) (key : String) : List String :=
  ((f.tags.lookup (normalizeSlashes key)).orElse fun _ =>
    f.tags.lookup (backslashify key)).getD []

/-- Embeds `selectedRegularTags.every(tag => cardTags.some(cardTag =>
cardTag.toLowerCase() === tag.toLowerCase()))`. -/
def regularTagsPass (selectedRegularTags : List String) (cardTags : List String) : Bool :=
  selectedRegularTags.all fun tag =>
    cardTags.any fun cardTag => jsToLower cardTag == jsToLower tag

/-- Embeds `!(!value || typeof value !== 'object' || !value.name || !value.author
|| value.error)` — the basic validation of both iterations. -/
def validEntry (v : RawEntry) : Bool :=
  v.isObject && truthy v.name && truthy v.author && !v.error

/-- The filter callback of `fetchCharactersBySearch` in `src/index.js`
(lines 521-573): validation, then the NSFW-visibility rule, then the
selected-category rule, then the regular-tag rule.  The source also
computes `isInAnyCategory` here but never uses it. -/
def filterPredIndexJs (showNSFW : Bool) (selectedTags : List String)
    (f : Filters) (key : String) (v : RawEntry) : Bool :=
  if !validEntry v then false
  else if !showNSFW && inNsfwList f key then false
  else if !(selectedCategoriesOf selectedTags).isEmpty &&
          !inSelectedCategory (selectedCategoriesOf selectedTags) f key then false
  else if !(selectedRegularTagsOf selectedTags).isEmpty then
    regularTagsPass (selectedRegularTagsOf selectedTags) (resolveTags f key)
  else true

/-- The filter callback of `fetchCharactersBySearch` in
`src/unnamed/part_001` (lines 401-449): validation, then
`selectedCategories.length === 0 && isInAnyCategory → drop`, then for
categorized entries the selected-category rule, then the regular-tag rule. -/
def filterPredPart1 (selectedTags : List String)
    (f : Filters) (key : String) (v : RawEntry) : Bool :=
  if !validEntry v then false
  else if (selectedCategoriesOf selectedTags).isEmpty && isInAnyCategoryB f key then false
  else if isInAnyCategoryB f key &&
          !inSelectedCategory (selectedCategoriesOf selectedTags) f key then false
  else if !(selectedRegularTagsOf selectedTags).isEmpty then
    regularTagsPass (selectedRegularTagsOf selectedTags) (resolveTags f key)
  else true

/-- A transformed character record (the object built in the `.map` step). -/
structure CharacterRecord where
  path : String
  url : String
  name : String
  author : String
  description : String
  dateupdate : String
  datecreate : String
  tags : List String
  deriving DecidableEq

/-- The `.map` transformation of `src/index.js` (lines 574-590), with the
current time `new Date().toISOString()` passed in as `nowISO`. -/
def transformIndexJs (nowISO : String) (f : Filters) (key : String) (v : RawEntry) :
    CharacterRecord where
  path := key
  url := "https://mlpchag.neocities.org/cards/" ++ key
  name := truthyOr v.name "Unknown"
  author := truthyOr v.author "Unknown"
  description := truthyOr v.description ""
  dateupdate := truthyOr v.dateupdate nowISO
  datecreate := truthyOr v.datecreate (truthyOr v.dateupdate nowISO)
  tags := resolveTags f key

/-- The `.map` transformation of `src/unnamed/part_001` (lines 450-465):
it defaults `dateupdate` the same way but sets no `datecreate` field, so
`datecreate` stays whatever the raw spread `...value` carried. -/
def transformPart1Dates (nowISO : String) (v : RawEntry) : String × Option String :=
  (truthyOr v.dateupdate nowISO, v.datecreate)

/-- The raw catalog: the entries of the `mares.json` object, in order. -/
def MaresData : Type := List (String × RawEntry)

instance : DecidableEq MaresData := by
  unfold MaresData
  infer_instance

/-- Embeds `CACHE_DURATION = 5 * 60 * 1000` milliseconds. -/
def CACHE_DURATION : Nat := 5 * 60 * 1000

/-- The module-level cache: `cachedData` (the `[maresData, filters]` pair
or `null`) and `lastFetchTime`. -/
structure CacheState where
  cachedData : Option (MaresData × Filters)
  lastFetchTime : Nat
  deriving DecidableEq

/-- What the network would answer during one invocation: the status and
body of the catalog request and of the filter-index request. -/
structure NetworkEnv where
  maresOk : Bool
  filtersOk : Bool
  maresData : MaresData
  filtersData : Filters

/-- Outcome of the data-acquisition part of `fetchCharactersBySearch`:
the value or error, the cache state afterwards, and how many network
requests were issued. -/
structure FetchOutcome where
  result : Except String (MaresData × Filters)
  state : CacheState
  networkCalls : Nat

/-- The network branch of `fetchCharactersBySearch` in `src/index.js`
(lines 497-517): both requests are issued concurrently (2 calls), a
non-success status on either throws before the cache is touched, and on
success both resources are stored together with `lastFetchTime = now`. -/
def fetchFresh (now : Nat) (st : CacheState) (net : NetworkEnv) : FetchOutcome :=
  if !net.maresOk then
    { result := Except.error "Failed to fetch characters", state := st, networkCalls := 2 }
  else if !net.filtersOk then
    { result := Except.error "Failed to fetch filters", state := st, networkCalls := 2 }
  else
    { result := Except.ok (net.maresData, net.filtersData)
      state := { cachedData := some (net.maresData, net.filtersData), lastFetchTime := now }
      networkCalls := 2 }

/-- The data-acquisition part of `fetchCharactersBySearch` in
`src/index.js` (lines 479-517): `shouldUseCache = cacheEnabled &&
cachedData && (now - lastFetchTime < CACHE_DURATION)`. -/
def fetchData (cacheEnabled : Bool) (now : Nat) (st : CacheState) (net : NetworkEnv) :
    FetchOutcome :=
  match st.cachedData with
  | some pair =>
    if cacheEnabled && decide (now - st.lastFetchTime < CACHE_DURATION) then
      { result := Except.ok pair, state := st, networkCalls := 0 }
    else fetchFresh now st net
  | none => fetchFresh now st net

/-- Embeds `paginateResults` (`src/index.js` lines 675-679):
`characters.slice((page-1)*findCount, page*findCount)`. -/
def paginateResults {α : Type} (findCount : Nat) (characters : List α) (page : Nat) :
    List α :=
  (characters.drop ((page - 1) * findCount)).take findCount

/-- What `executeCharacterSearch` does with the paginated result: show
the list, show the no-results message, or re-run with the previous page. -/
inductive SearchView (α : Type) where
  | list (chars : List α)
  | noResults
  | retryPage (page : Nat)
  deriving DecidableEq

/-- Embeds `handleNoSearchResults` (`src/index.js` lines 708-716): page 1 shows
the no-results message, any later page re-executes with `page - 1`. -/
def handleNoSearchResults {α : Type} (page : Nat) : SearchView α :=
  if page = 1 then SearchView.noResults else SearchView.retryPage (page - 1)

/-- The dispatch in `executeCharacterSearch` (`src/index.js` lines
689-702): a non-empty result is displayed, otherwise
`handleNoSearchResults` runs. -/
def executeSearchStep {α : Type} (results : List α) (page : Nat) : SearchView α :=
  if 0 < results.length then SearchView.list results else handleNoSearchResults page

/-- Lexicographic three-way comparison on character lists, the model of
`String.prototype.localeCompare` over the catalog's alphabet. -/
def lexCompare : List Char → List Char → Int
  | [], [] => 0
  | [], _ :: _ => -1
  | _ :: _, [] => 1
  | a :: as, b :: bs =>
    if a.toNat < b.toNat then -1
    else if b.toNat < a.toNat then 1
    else lexCompare as bs

/-- Model of `a.localeCompare(b)`. -/
def localeCompare (a b : String) : Int := lexCompare a.data b.data

/-- The comparator of `applySorting` (`src/index.js` lines 650-667);
`dateValue` is the numeric value of `new Date(s)`. -/
def sortComparator (dateValue : String → Int) (sortType : String)
    (a b : CharacterRecord) : Int :=
  if sortType = "name" then localeCompare a.name b.name
  else if sortType = "author" then localeCompare a.author b.author
  else if sortType = "datecreate" then dateValue b.datecreate - dateValue a.datecreate
  else dateValue b.dateupdate - dateValue a.dateupdate

/-- Embeds `applySorting`: `characters.sort(comparator)`.  ECMAScript requires
`Array.prototype.sort` to be stable, so the faithful embedding is any
stable comparison sort; we use `List.mergeSort` with `comparator ≤ 0`. -/
def applySorting (dateValue : String → Int) (sortType : String)
    (characters : List CharacterRecord) : List CharacterRecord :=
  characters.mergeSort fun a b => decide (sortComparator dateValue sortType a b ≤ 0)

/-- Embeds `text.replace(/c/g, rep)` for a single character pattern. -/
def jsReplaceAll (target : Char) (rep : List Char) (s : List Char) : List Char :=
  s.flatMap fun c => if c = target then rep else [c]

/-- Embeds `sanitizeText` (`src/index.js` lines 96-103, `src/unnamed/part_001`
lines 224-231): falsy input gives `''`; otherwise `<`, `>`, `"`, `'` are
replaced in that order by their HTML entities. -/
def sanitizeText (text : Option String) : String :=
  match text with
  | none => ""
  | some s =>
    if s.isEmpty then ""
    else
      String.mk
        (jsReplaceAll apostChar ['&', '#', '0', '3', '9', ';']
          (jsReplaceAll quoteChar ['&', 'q', 'u', 'o', 't', ';']
            (jsReplaceAll '>' ['&', 'g', 't', ';']
              (jsReplaceAll '<' ['&', 'l', 't', ';'] s.data))))

/-! ### Concrete data used by witnesses and counterexamples -/

/-- A filter index with all lists and the tag map empty. -/
def emptyFilters : Filters := { nsfw := [], anthro := [], eqg := [], tags := [] }

/-- A raw catalog entry passing validation, with a raw `dateupdate` but no
raw `datecreate`. -/
def validRaw : RawEntry where
  isObject := true
  name := some "Twilight"
  author := some "Anon"
  error := false
  description := none
  dateupdate := some "2024-01-02T00:00:00Z"
  datecreate := none

/-- A filter index whose `eqg` list holds `pony.png` and nothing else. -/
def filtersEqgOnly : Filters := { nsfw := [], anthro := [], eqg := ["pony.png"], tags := [] }

/-- A filter index listing `x.png` in both the `nsfw` and `eqg` categories. -/
def filtersNsfwEqg : Filters :=
  { nsfw := ["x.png"], anthro := [], eqg := ["x.png"], tags := [] }

/-- A filter index tagging `pony.png` with `Mare` and `canon`. -/
def filtersTagged : Filters :=
  { nsfw := [], anthro := [], eqg := [], tags := [("pony.png", ["Mare", "canon"])] }

/-- A character record used by the sorting witness. -/
def recB : CharacterRecord where
  path := "a"
  url := "u"
  name := "B"
  author := "x"
  description := ""
  dateupdate := "d"
  datecreate := "d"
  tags := []

/-- A second character record with the same `dateupdate` as `recB`. -/
def recA : CharacterRecord where
  path := "b"
  url := "u"
  name := "A"
  author := "y"
  description := ""
  dateupdate := "d"
  datecreate := "d"
  tags := []

/-- A concrete stand-in for the `new Date(s)` numeric value. -/
def lenDateValue (s : String) : Int := (s.length : Int)

/-! ### Helper lemmas -/

/-- Backslashifying after normalizing equals backslashifying directly:
both send every slash of either style to a backslash. -/
theorem backslashify_normalizeSlashes (s : String) :
    backslashify (normalizeSlashes s) = backslashify s := by
  unfold backslashify normalizeSlashes
  apply congrArg String.mk
  show (s.data.map _).map _ = s.data.map _
  rw [List.map_map]
  apply List.map_congr_left
  intro c _
  by_cases hb : c = backslashChar
  · subst hb
    simp only [Function.comp_apply, if_pos rfl]
    have h1 : backslashChar ≠ '/' := by decide
    have h2 : ('/' : Char) = '/' := rfl
    simp [h1]
  · by_cases hs : c = '/'
    · subst hs
      have h1 : ('/' : Char) ≠ backslashChar := by decide
      simp [Function.comp_apply, h1]
    · simp [Function.comp_apply, hb, hs]

/-- Characters of a `jsReplaceAll` output come from the replacement or
are unreplaced characters of the input. -/
theorem mem_jsReplaceAll {x target : Char} {rep s : List Char}
    (hx : x ∈ jsReplaceAll target rep s) : x ∈ rep ∨ (x ∈ s ∧ x ≠ target) := by
  unfold jsReplaceAll at hx
  rcases List.mem_flatMap.1 hx with ⟨c, hc, hx'⟩
  by_cases h : c = target
  · rw [if_pos h] at hx'
    exact Or.inl hx'
  · rw [if_neg h] at hx'
    rcases List.mem_singleton.1 hx' with rfl
    exact Or.inr ⟨hc, h⟩

/-! ### Claim theorems -/

/-- C7: tag resolution is a function of the slash-normalized path only:
two catalog keys that differ only in slash style (equal once every
backslash is turned into a slash) resolve to the same tag sequence, for
every filter index. -/
theorem c7_tags_resolution_slash_invariant (f : Filters) (k1 k2 : String)
    (h : normalizeSlashes k1 = normalizeSlashes k2) :
    resolveTags f k1 = resolveTags f k2 := by
  unfold resolveTags
  rw [h, ← backslashify_normalizeSlashes k1, ← backslashify_normalizeSlashes k2, h]

/-- Witness for C7 at the concrete pair `"a/b"` and `"a\b"` with a filter
index keyed under the slash form. -/
theorem c7_witness :
    normalizeSlashes (String.mk ['a', '/', 'b'])
        = normalizeSlashes (String.mk ['a', backslashChar, 'b'])
      ∧ resolveTags
          { nsfw := [], anthro := [], eqg := [],
            tags := [(String.mk ['a', '/', 'b'], ["mare"])] }
          (String.mk ['a', '/', 'b'])
        = resolveTags
          { nsfw := [], anthro := [], eqg := [],
            tags := [(String.mk ['a', '/', 'b'], ["mare"])] }
          (String.mk ['a', backslashChar, 'b']) :=
  ⟨by decide, c7_tags_resolution_slash_invariant _ _ _ (by decide)⟩

/-- C10: `sanitizeText` output never contains `<`, `>`, `"` or `'`
(each is replaced by its HTML entity), and every falsy input
(`null`/`undefined` modelled as `none`, and the empty string) yields the
empty string. -/
theorem c10_sanitizeText_safe (t : Option String) :
    ((sanitizeText t).data.all fun c =>
        !(c == '<') && !(c == '>') && !(c == quoteChar) && !(c == apostChar)) = true
      ∧ sanitizeText none = "" ∧ sanitizeText (some "") = "" := by
  refine ⟨?_, rfl, rfl⟩
  rw [List.all_eq_true]
  intro c hc
  match t with
  | none => simp [sanitizeText] at hc
  | some s =>
    simp only [sanitizeText] at hc
    by_cases hs : s.isEmpty
    · rw [if_pos hs] at hc
      simp at hc
    · rw [if_neg hs] at hc
      have hc' : c ∈
          jsReplaceAll apostChar ['&', '#', '0', '3', '9', ';']
            (jsReplaceAll quoteChar ['&', 'q', 'u', 'o', 't', ';']
              (jsReplaceAll '>' ['&', 'g', 't', ';']
                (jsReplaceAll '<' ['&', 'l', 't', ';'] s.data))) := hc
      rcases mem_jsReplaceAll hc' with h1 | ⟨h1, hna⟩
      · fin_cases h1 <;> decide
      rcases mem_jsReplaceAll h1 with h2 | ⟨h2, hnq⟩
      · fin_cases h2 <;> decide
      rcases mem_jsReplaceAll h2 with h3 | ⟨h3, hng⟩
      · fin_cases h3 <;> decide
      rcases mem_jsReplaceAll h3 with h4 | ⟨_, hnl⟩
      · fin_cases h4 <;> decide
      simp only [Bool.and_eq_true, Bool.not_eq_true', beq_eq_false_iff_ne, ne_eq]
      exact ⟨⟨⟨hnl, hng⟩, hnq⟩, hna⟩

/-- C4: for a result list of length `L`, page `p ≥ 1` and page size `n`,
pagination is exactly the index slice `[(p-1)*n, p*n)` of the list
(length `min n (L - (p-1)*n)`, element `i` being input element
`(p-1)*n + i`); an empty slice on a page `p > 1` makes the search
re-execute with page `p - 1`, and an empty result on page 1 surfaces the
no-results state. -/
theorem c4_pagination_slice {α : Type} (n p : Nat) (l : List α) (_hp : 1 ≤ p) :
    (paginateResults n l p).length = min n (l.length - (p - 1) * n)
      ∧ (∀ i, i < n → (paginateResults n l p)[i]? = l[(p - 1) * n + i]?)
      ∧ (paginateResults n l p = [] → 1 < p →
          executeSearchStep (paginateResults n l p) p = SearchView.retryPage (p - 1))
      ∧ (paginateResults n l p = [] → p = 1 →
          executeSearchStep (paginateResults n l p) p = SearchView.noResults) := by
  refine ⟨?_, ?_, ?_, ?_⟩
  · simp [paginateResults, List.length_take, List.length_drop]
  · intro i hi
    simp [paginateResults, List.getElem?_take, hi, List.getElem?_drop]
  · intro hempty hp1
    rw [hempty]
    simp only [executeSearchStep, List.length_nil, Nat.lt_irrefl, if_false]
    unfold handleNoSearchResults
    rw [if_neg (by omega)]
  · intro hempty hp1
    rw [hempty]
    simp only [executeSearchStep, List.length_nil, Nat.lt_irrefl, if_false]
    unfold handleNoSearchResults
    rw [if_pos hp1]

/-- Witness for C4 with page size 30 and 65 results: page 3 holds 5
items and the empty page 4 backs off to page 3. -/
theorem c4_witness :
    (paginateResults 30 (List.range 65) 3).length = min 30 (65 - 2 * 30)
      ∧ executeSearchStep (paginateResults 30 (List.range 65) 4) 4
          = SearchView.retryPage 3 :=
  ⟨by have h := (c4_pagination_slice 30 3 (List.range 65) (by decide)).1
      simpa using h,
   by have h := (c4_pagination_slice 30 4 (List.range 65) (by decide)).2.2.1
        (by decide) (by decide)
      simpa using h⟩

/-- C3: with caching enabled, a fetch while `now - lastFetchTime` is
strictly below the 5-minute TTL and cached data is present returns the
cached pair with zero network requests and an unchanged state; a fetch
once the TTL has elapsed issues exactly two network requests and, when
both succeed, replaces both cached resources together and refreshes the
timestamp to `now`. -/
theorem c3_cache_behavior (now : Nat) (st : CacheState) (net : NetworkEnv) :
    (∀ pair, st.cachedData = some pair → now - st.lastFetchTime < CACHE_DURATION →
        fetchData true now st net
          = { result := Except.ok pair, state := st, networkCalls := 0 })
      ∧ (CACHE_DURATION ≤ now - st.lastFetchTime →
          (fetchData true now st net).networkCalls = 2
            ∧ (net.maresOk = true → net.filtersOk = true →
                (fetchData true now st net).result
                    = Except.ok (net.maresData, net.filtersData)
                  ∧ (fetchData true now st net).state
                    = { cachedData := some (net.maresData, net.filtersData),
                        lastFetchTime := now })) := by
  constructor
  · intro pair hcd hlt
    simp [fetchData, hcd, hlt]
  · intro hge
    have hfresh : fetchData true now st net = fetchFresh now st net := by
      rcases hcd : st.cachedData with _ | pair
      · simp [fetchData, hcd]
      · simp only [fetchData, hcd]
        rw [if_neg]
        simp only [Bool.true_and, decide_eq_true_eq, not_lt]
        omega
    rw [hfresh]
    refine ⟨?_, ?_⟩
    · unfold fetchFresh
      cases net.maresOk <;> cases net.filtersOk <;> simp
    · intro hm hf
      simp [fetchFresh, hm, hf]

/-- Witness for C3: a cache hit one millisecond after the last fetch, and
a miss exactly at the TTL boundary with both requests succeeding. -/
theorem c3_witness :
    fetchData true 11
        { cachedData := some ([], emptyFilters), lastFetchTime := 10 }
        { maresOk := true, filtersOk := true, maresData := [], filtersData := emptyFilters }
      = { result := Except.ok ([], emptyFilters),
          state := { cachedData := some ([], emptyFilters), lastFetchTime := 10 },
          networkCalls := 0 }
      ∧ (fetchData true 300010
          { cachedData := some ([], emptyFilters), lastFetchTime := 10 }
          { maresOk := true, filtersOk := true, maresData := [],
            filtersData := emptyFilters }).state
        = { cachedData := some ([], emptyFilters), lastFetchTime := 300010 } :=
  ⟨(c3_cache_behavior 11 _ _).1 _ rfl (by decide),
   (((c3_cache_behavior 300010 _ _).2 (by decide)).2 rfl rfl).2⟩

/-- C5: when the network requests are actually issued (cache empty or
expired) and either response has a non-success status, the fetch fails
with an error, exactly the two concurrent requests were made (no retry),
and the cache slot and fetch timestamp are left unchanged. -/
theorem c5_fetch_error_state_unchanged (cacheEnabled : Bool) (now : Nat)
    (st : CacheState) (net : NetworkEnv)
    (hmiss : st.cachedData = none ∨ CACHE_DURATION ≤ now - st.lastFetchTime)
    (herr : net.maresOk = false ∨ net.filtersOk = false) :
    (∃ e, (fetchData cacheEnabled now st net).result = Except.error e)
      ∧ (fetchData cacheEnabled now st net).state = st
      ∧ (fetchData cacheEnabled now st net).networkCalls = 2 := by
  have hfresh : fetchData cacheEnabled now st net = fetchFresh now st net := by
    rcases hcd : st.cachedData with _ | pair
    · simp [fetchData, hcd]
    · rcases hmiss with hnone | hge
      · rw [hcd] at hnone
        exact absurd hnone (by simp)
      · simp only [fetchData, hcd]
        rw [if_neg]
        simp only [Bool.and_eq_true, decide_eq_true_eq, not_and, not_lt]
        intro _
        omega
  rw [hfresh]
  rcases herr with hm | hf
  · refine ⟨⟨"Failed to fetch characters", ?_⟩, ?_, ?_⟩ <;> simp [fetchFresh, hm]
  · cases hm : net.maresOk
    · refine ⟨⟨"Failed to fetch characters", ?_⟩, ?_, ?_⟩ <;> simp [fetchFresh, hm]
    · refine ⟨⟨"Failed to fetch filters", ?_⟩, ?_, ?_⟩ <;> simp [fetchFresh, hm, hf]

/-- Witness for C5: empty cache, catalog request failing. -/
theorem c5_witness :
    (∃ e, (fetchData true 0 { cachedData := none, lastFetchTime := 0 }
        { maresOk := false, filtersOk := true, maresData := [],
          filtersData := { nsfw := [], anthro := [], eqg := [], tags := [] } }).result
      = Except.error e)
      ∧ (fetchData true 0 { cachedData := none, lastFetchTime := 0 }
          { maresOk := false, filtersOk := true, maresData := [],
            filtersData := { nsfw := [], anthro := [], eqg := [], tags := [] } }).state
        = { cachedData := none, lastFetchTime := 0 } :=
  ⟨(c5_fetch_error_state_unchanged true 0 _ _ (Or.inl rfl) (Or.inl rfl)).1,
   (c5_fetch_error_state_unchanged true 0 _ _ (Or.inl rfl) (Or.inl rfl)).2.1⟩

/-- C1 counterexample: in the `src/index.js` filter, with no category
selected (`selectedTags = []`) and NSFW hidden, a valid entry whose path
is in the `eqg` category list still survives — the claim's
uncategorized-only default view does not hold for this iteration (which
computes `isInAnyCategory` but never uses it). -/
theorem c1_counterexample :
    isInAnyCategoryB filtersEqgOnly "pony.png" = true
      ∧ filterPredIndexJs false [] filtersEqgOnly "pony.png" validRaw = true := by
  constructor <;> rfl

/-- C1 amended: with no category selected, the `part_001` iteration drops
every entry whose normalized path appears in any of the three category
lists; the `index.js` iteration only drops entries on the `nsfw` list,
and only when NSFW visibility is off. -/
theorem c1_uncategorized_default_view (showNSFW : Bool) (selectedTags : List String)
    (f : Filters) (key : String) (v : RawEntry)
    (hsel : selectedCategoriesOf selectedTags = []) :
    (isInAnyCategoryB f key = true → filterPredPart1 selectedTags f key v = false)
      ∧ (showNSFW = false → inNsfwList f key = true →
          filterPredIndexJs showNSFW selectedTags f key v = false) := by
  constructor
  · intro hin
    unfold filterPredPart1
    rw [hsel]
    cases hv : validEntry v
    · simp
    · simp [hin]
  · intro hvis hnsfw
    subst hvis
    unfold filterPredIndexJs
    cases hv : validEntry v
    · simp
    · simp [hnsfw]

/-- Witness for C1 (amended) at a valid entry listed in both `nsfw` and
`eqg`, with no tag selected. -/
theorem c1_witness :
    filterPredPart1 [] filtersNsfwEqg "x.png" validRaw = false
      ∧ filterPredIndexJs false [] filtersNsfwEqg "x.png" validRaw = false :=
  ⟨(c1_uncategorized_default_view false [] filtersNsfwEqg "x.png" validRaw rfl).1 rfl,
   (c1_uncategorized_default_view false [] filtersNsfwEqg "x.png" validRaw rfl).2 rfl rfl⟩

/-- C2 counterexample: in the `part_001` iteration, with the `eqg`
category selected, a valid entry appearing in none of the three category
lists survives the filter — so the category branch there is not
exclusive of uncategorized entries. -/
theorem c2_counterexample :
    isInAnyCategoryB filtersEqgOnly "plain.png" = false
      ∧ filterPredPart1 ["eqg"] filtersEqgOnly "plain.png" validRaw = true := by
  constructor <;> rfl

/-- C2 amended: in the `src/index.js` iteration, when at least one
category is selected an entry survives only if its normalized path
appears in some selected category's list, and in particular every entry
appearing in none of the three category lists is dropped; the `part_001`
iteration instead lets uncategorized entries through this branch. -/
theorem c2_category_selection_exclusive (showNSFW : Bool) (selectedTags : List String)
    (f : Filters) (key : String) (v : RawEntry)
    (hne : selectedCategoriesOf selectedTags ≠ []) :
    (filterPredIndexJs showNSFW selectedTags f key v = true →
        ∃ c ∈ selectedCategoriesOf selectedTags,
          (f.categoryList c).any (pathMatchesKey (normalizeSlashes key)) = true)
      ∧ (isInAnyCategoryB f key = false →
          filterPredIndexJs showNSFW selectedTags f key v = false) := by
  have hje : (selectedCategoriesOf selectedTags).isEmpty = false :=
    List.isEmpty_eq_false.2 hne
  have key1 : filterPredIndexJs showNSFW selectedTags f key v = true →
      inSelectedCategory (selectedCategoriesOf selectedTags) f key = true := by
    intro hpred
    by_contra hno
    have hno' : inSelectedCategory (selectedCategoriesOf selectedTags) f key = false :=
      Bool.eq_false_iff.2 hno
    unfold filterPredIndexJs at hpred
    rw [hje, hno'] at hpred
    cases hv : validEntry v <;> rw [hv] at hpred <;>
      simp at hpred
  constructor
  · intro hpred
    exact List.any_eq_true.1 (key1 hpred)
  · intro hnone
    cases hpred : filterPredIndexJs showNSFW selectedTags f key v
    · rfl
    · exfalso
      rcases List.any_eq_true.1 (key1 hpred) with ⟨c, hc, hmatch⟩
      have hcn : c ∈ categoryNames := by
        have := List.mem_filter.1 hc
        exact List.mem_of_elem_eq_true this.2
      have : isInAnyCategoryB f key = true :=
        List.any_eq_true.2 ⟨c, hcn, hmatch⟩
      rw [hnone] at this
      exact Bool.false_ne_true this

/-- Witness for C2 (amended): with `eqg` selected, the listed entry
survives and yields its selected category, and an uncategorized entry is
dropped. -/
theorem c2_witness :
    (∃ c ∈ selectedCategoriesOf ["eqg"],
        (filtersEqgOnly.categoryList c).any
          (pathMatchesKey (normalizeSlashes "pony.png")) = true)
      ∧ filterPredIndexJs true ["eqg"] filtersEqgOnly "plain.png" validRaw = false :=
  ⟨(c2_category_selection_exclusive true ["eqg"] filtersEqgOnly "pony.png" validRaw
      (by decide)).1 rfl,
   (c2_category_selection_exclusive true ["eqg"] filtersEqgOnly "plain.png" validRaw
      (by decide)).2 rfl⟩

/-- C6: once an entry passes validation, the NSFW rule and the category
rule, and at least one regular (non-category) tag is selected, it
survives the `index.js` filter exactly when its resolved tag list
contains every selected regular tag up to case-insensitive equality (a
conjunction across the selected tags). -/
theorem c6_regular_tags_conjunctive (showNSFW : Bool) (selectedTags : List String)
    (f : Filters) (key : String) (v : RawEntry)
    (hv : validEntry v = true)
    (hn : (!showNSFW && inNsfwList f key) = false)
    (hc : (!(selectedCategoriesOf selectedTags).isEmpty &&
            !inSelectedCategory (selectedCategoriesOf selectedTags) f key) = false)
    (hr : selectedRegularTagsOf selectedTags ≠ []) :
    filterPredIndexJs showNSFW selectedTags f key v = true ↔
      ∀ t ∈ selectedRegularTagsOf selectedTags,
        ∃ ct ∈ resolveTags f key, jsToLower ct = jsToLower t := by
  have hre : (selectedRegularTagsOf selectedTags).isEmpty = false :=
    List.isEmpty_eq_false.2 hr
  unfold filterPredIndexJs
  rw [hv, hn, hc, hre]
  simp only [Bool.not_true, Bool.false_eq_true, if_false, Bool.not_false, if_true]
  unfold regularTagsPass
  rw [List.all_eq_true]
  constructor
  · intro h t ht
    rcases List.any_eq_true.1 (h t ht) with ⟨ct, hct, hbeq⟩
    exact ⟨ct, hct, beq_iff_eq.1 hbeq⟩
  · intro h t ht
    rcases h t ht with ⟨ct, hct, heq⟩
    exact List.any_eq_true.2 ⟨ct, hct, beq_iff_eq.2 heq⟩

/-- Witness for C6: the entry tagged `{Mare, canon}` survives the
selection `{mare, canon}` (case-insensitively) but not `{mare,
stallion}`. -/
theorem c6_witness :
    filterPredIndexJs true ["mare", "canon"] filtersTagged "pony.png" validRaw = true
      ∧ filterPredIndexJs true ["mare", "stallion"] filtersTagged "pony.png" validRaw
          = false :=
  ⟨(c6_regular_tags_conjunctive true ["mare", "canon"] filtersTagged "pony.png" validRaw
      rfl rfl rfl (by decide)).2 (by decide),
   by rfl⟩

/-- C9 counterexample: a surviving raw entry with no `datecreate` but a
present `dateupdate` is transformed with `datecreate` equal to the raw
`dateupdate`, not to the current time as the claim states. -/
theorem c9_counterexample :
    validRaw.datecreate = none
      ∧ (transformIndexJs "NOW" emptyFilters "k.png" validRaw).datecreate
          = "2024-01-02T00:00:00Z"
      ∧ "2024-01-02T00:00:00Z" ≠ "NOW" := by
  refine ⟨rfl, rfl, by decide⟩

/-- C9 amended: in the `index.js` transformation, `dateupdate` equals the
raw value when present (truthy) and the current time otherwise, while
`datecreate` equals the raw `datecreate` when present, else the raw
`dateupdate` when that is present, and only else the current time (the
`part_001` transformation defaults only `dateupdate` and leaves
`datecreate` as the raw spread carried it). -/
theorem c9_date_defaults (nowISO : String) (f : Filters) (key : String) (v : RawEntry) :
    (∀ s, v.dateupdate = some s → s ≠ "" →
        (transformIndexJs nowISO f key v).dateupdate = s)
      ∧ (truthy v.dateupdate = false →
          (transformIndexJs nowISO f key v).dateupdate = nowISO)
      ∧ (∀ s, v.datecreate = some s → s ≠ "" →
          (transformIndexJs nowISO f key v).datecreate = s)
      ∧ (truthy v.datecreate = false → ∀ s, v.dateupdate = some s → s ≠ "" →
          (transformIndexJs nowISO f key v).datecreate = s)
      ∧ (truthy v.datecreate = false → truthy v.dateupdate = false →
          (transformIndexJs nowISO f key v).datecreate = nowISO)
      ∧ (transformPart1Dates nowISO v).2 = v.datecreate := by
  have hval : ∀ (o : Option String) (d : String) (s : String),
      o = some s → s ≠ "" → truthyOr o d = s := by
    intro o d s ho hs
    subst ho
    simp only [truthyOr]
    rw [if_neg]
    simp only [String.isEmpty_iff]
    exact hs
  have hdef : ∀ (o : Option String) (d : String), truthy o = false → truthyOr o d = d := by
    intro o d ho
    match o with
    | none => rfl
    | some s =>
      simp only [truthy, Bool.not_eq_false'] at ho
      simp only [truthyOr]
      rw [if_pos ho]
  refine ⟨?_, ?_, ?_, ?_, ?_, rfl⟩
  · intro s hs hne
    exact hval _ _ _ hs hne
  · intro hfu
    exact hdef _ _ hfu
  · intro s hs hne
    exact hval _ _ _ hs hne
  · intro hfc s hs hne
    show truthyOr v.datecreate (truthyOr v.dateupdate nowISO) = s
    rw [hdef _ _ hfc]
    exact hval _ _ _ hs hne
  · intro hfc hfu
    show truthyOr v.datecreate (truthyOr v.dateupdate nowISO) = nowISO
    rw [hdef _ _ hfc, hdef _ _ hfu]

/-- Witness for C9 (amended) at the concrete entry with a raw
`dateupdate` and no raw `datecreate`. -/
theorem c9_witness :
    (transformIndexJs "NOW" emptyFilters "k.png" validRaw).dateupdate
        = "2024-01-02T00:00:00Z"
      ∧ (transformIndexJs "NOW" emptyFilters "k.png" validRaw).datecreate
        = "2024-01-02T00:00:00Z" :=
  ⟨(c9_date_defaults "NOW" emptyFilters "k.png" validRaw).1 _ rfl (by decide),
   (c9_date_defaults "NOW" emptyFilters "k.png" validRaw).2.2.2.1 rfl _ rfl (by decide)⟩

/-- Totality of the lexicographic comparison: one side always compares
at or below zero. -/
theorem lexCompare_le_total : ∀ as bs : List Char,
    lexCompare as bs ≤ 0 ∨ lexCompare bs as ≤ 0 := by
  intro as
  induction as with
  | nil =>
    intro bs
    cases bs <;> simp [lexCompare]
  | cons a as ih =>
    intro bs
    cases bs with
    | nil =>
      right
      simp [lexCompare]
    | cons b bs =>
      simp only [lexCompare]
      rcases Nat.lt_trichotomy a.toNat b.toNat with h | h | h
      · left
        rw [if_pos h]
        decide
      · simp only [h, lt_self_iff_false, if_false]
        exact ih bs
      · right
        rw [if_pos h]
        decide

/-- Transitivity of `lexCompare _ _ ≤ 0`. -/
theorem lexCompare_le_trans : ∀ as bs cs : List Char,
    lexCompare as bs ≤ 0 → lexCompare bs cs ≤ 0 → lexCompare as cs ≤ 0 := by
  intro as
  induction as with
  | nil =>
    intro bs cs _ _
    cases cs <;> simp [lexCompare]
  | cons a as ih =>
    intro bs cs h1 h2
    cases bs with
    | nil => simp [lexCompare] at h1
    | cons b bs =>
      cases cs with
      | nil => simp [lexCompare] at h2
      | cons c cs =>
        simp only [lexCompare] at h1 h2 ⊢
        by_cases hab : a.toNat < b.toNat
        · by_cases hbc : b.toNat < c.toNat
          · rw [if_pos (by omega : a.toNat < c.toNat)]
            decide
          · by_cases hcb : c.toNat < b.toNat
            · rw [if_neg hbc, if_pos hcb] at h2
              exact absurd h2 (by decide)
            · rw [if_pos (by omega : a.toNat < c.toNat)]
              decide
        · by_cases hba : b.toNat < a.toNat
          · rw [if_neg hab, if_pos hba] at h1
            exact absurd h1 (by decide)
          · rw [if_neg hab, if_neg hba] at h1
            by_cases hbc : b.toNat < c.toNat
            · rw [if_pos (by omega : a.toNat < c.toNat)]
              decide
            · by_cases hcb : c.toNat < b.toNat
              · rw [if_neg hbc, if_pos hcb] at h2
                exact absurd h2 (by decide)
              · rw [if_neg hbc, if_neg hcb] at h2
                rw [if_neg (by omega : ¬a.toNat < c.toNat),
                  if_neg (by omega : ¬c.toNat < a.toNat)]
                exact ih bs cs h1 h2

/-- Transitivity of the sort comparator's at-most-zero relation, for
every sort key and date valuation. -/
theorem sortComparator_le_trans (dv : String → Int) (st : String) :
    ∀ a b c : CharacterRecord, sortComparator dv st a b ≤ 0 →
      sortComparator dv st b c ≤ 0 → sortComparator dv st a c ≤ 0 := by
  intro a b c
  unfold sortComparator localeCompare
  split_ifs
  · exact lexCompare_le_trans _ _ _
  · exact lexCompare_le_trans _ _ _
  · intro h1 h2
    omega
  · intro h1 h2
    omega

/-- Totality of the sort comparator's at-most-zero relation. -/
theorem sortComparator_le_total (dv : String → Int) (st : String) :
    ∀ a b : CharacterRecord,
      sortComparator dv st a b ≤ 0 ∨ sortComparator dv st b a ≤ 0 := by
  intro a b
  unfold sortComparator localeCompare
  split_ifs
  · exact lexCompare_le_total _ _
  · exact lexCompare_le_total _ _
  · omega
  · omega

/-- C8: `applySorting` is a stable sort of the filtered sequence by the
selected key — the output is a permutation of the input, pairwise ordered
by the comparator (`name`/`author` lexicographically ascending,
`datecreate`/`dateupdate` by descending date value, `dateupdate` being
the default branch), and any two entries comparing equal keep their
pre-sort relative order. -/
theorem c8_applySorting_stable (dv : String → Int) (st : String)
    (chars : List CharacterRecord) :
    (applySorting dv st chars).Perm chars
      ∧ (applySorting dv st chars).Pairwise (fun a b => sortComparator dv st a b ≤ 0)
      ∧ (∀ a b, sortComparator dv st a b = 0 → [a, b].Sublist chars →
          [a, b].Sublist (applySorting dv st chars))
      ∧ (st = "name" →
          (applySorting dv st chars).Pairwise fun a b =>
            localeCompare a.name b.name ≤ 0)
      ∧ (st ≠ "name" → st ≠ "author" → st ≠ "datecreate" →
          (applySorting dv st chars).Pairwise fun a b =>
            dv b.dateupdate ≤ dv a.dateupdate) := by
  have htrans : ∀ a b c : CharacterRecord,
      decide (sortComparator dv st a b ≤ 0) = true →
      decide (sortComparator dv st b c ≤ 0) = true →
      decide (sortComparator dv st a c ≤ 0) = true := by
    intro a b c h1 h2
    rw [decide_eq_true_eq] at h1 h2 ⊢
    exact sortComparator_le_trans dv st a b c h1 h2
  have htotal : ∀ a b : CharacterRecord,
      (decide (sortComparator dv st a b ≤ 0) ||
        decide (sortComparator dv st b a ≤ 0)) = true := by
    intro a b
    rcases sortComparator_le_total dv st a b with h | h <;> simp [h]
  have hpair :=
    @List.sorted_mergeSort CharacterRecord
      (fun x y => decide (sortComparator dv st x y ≤ 0)) htrans htotal chars
  refine ⟨?_, ?_, ?_, ?_, ?_⟩
  · exact List.mergeSort_perm chars _
  · exact hpair.imp fun h => of_decide_eq_true h
  · intro a b h0 hsub
    refine @List.sublist_mergeSort CharacterRecord
      (fun x y => decide (sortComparator dv st x y ≤ 0)) chars htrans htotal
      [a, b] ?_ hsub
    refine List.pairwise_cons.2 ⟨?_, List.pairwise_singleton _ _⟩
    intro a' ha'
    rcases List.mem_singleton.1 ha' with rfl
    rw [decide_eq_true_eq, h0]
  · intro hn
    subst hn
    refine hpair.imp fun h => ?_
    have h' := of_decide_eq_true h
    unfold sortComparator at h'
    rw [if_pos rfl] at h'
    exact h'
  · intro h1 h2 h3
    refine hpair.imp fun h => ?_
    have h' := of_decide_eq_true h
    unfold sortComparator at h'
    rw [if_neg h1, if_neg h2, if_neg h3] at h'
    omega

/-- Witness for C8: two records with equal `dateupdate` keep their
relative order through the default sort. -/
theorem c8_witness :
    sortComparator lenDateValue "dateupdate" recB recA = 0
      ∧ [recB, recA].Sublist (applySorting lenDateValue "dateupdate" [recB, recA]) :=
  ⟨by decide,
   (c8_applySorting_stable lenDateValue "dateupdate" [recB, recA]).2.2.1 recB recA
     (by decide) (List.Sublist.refl _)⟩

end Mlpchag
